import Mathlib

/-!
Verification of the event-wave coalescing and shadow-graph reconstruction
engine of `src/core/events.py` (Sverchok fork).

Embedding conventions:
* Python classes become Lean structures; Python dicts become insertion-ordered
  association lists (`dictGet` / `dictSet` reproduce `d[k]` lookup and
  `d[k] = v` assignment);
* object references (a `BlenderEvent` holding the live `NodeTree`, an `SvLink`
  holding its endpoint `SvNode`s) are embedded by identity values;
* exceptions become an explicit `Err` value, carried by `Except` for the
  fallible helpers and stored alongside the surviving class state for the
  dispatch entry points (Python class attributes keep their values when an
  exception escapes);
* debug-mode `print` calls have no effect on any state and are omitted;
* two methods of the source are declared with unimplemented (`...`) bodies and
  are modelled from the spec; their doc comments say so explicitly.
-/

namespace SvEvents

/-- Raw Blender event kinds (`BlenderEventsTypes` in the source). -/
inductive BlenderEventsTypes where
  | tree_update
  | monad_tree_update
  | node_update
  | add_node
  | copy_node
  | free_node
  | add_link_to_node
  | node_property_update
  | undo
  | frame_change
  deriving DecidableEq, Repr

/-- Domain event kinds (`SverchokEventsTypes` in the source). -/
inductive SverchokEventsTypes where
  | add_node
  | copy_node
  | free_node
  | node_property_update
  | node_link_update
  | undo
  | undefined
  | frame_change
  deriving DecidableEq, Repr

/-- The `EVENT_CONVERSION` lookup table (total over the raw kinds). -/
def EVENT_CONVERSION : BlenderEventsTypes → SverchokEventsTypes
  | .tree_update => .undefined
  | .monad_tree_update => .undefined
  | .node_update => .undefined
  | .add_node => .add_node
  | .copy_node => .copy_node
  | .free_node => .free_node
  | .add_link_to_node => .node_link_update
  | .node_property_update => .node_property_update
  | .undo => .undo
  | .frame_change => .frame_change

/-- The `IS_WAVE_END` dict: the five listed kinds map to `True`;
`dict.get(type, False)` makes every other kind `false`. -/
def IS_WAVE_END : BlenderEventsTypes → Bool
  | .tree_update => true
  | .node_property_update => true
  | .monad_tree_update => true
  | .undo => true
  | .frame_change => true
  | _ => false

/-- Python dict lookup `d.get(k)` over an insertion-ordered association list. -/
def dictGet {κ α : Type} [DecidableEq κ] : List (κ × α) → κ → Option α
  | [], _ => none
  | p :: rest, k => if p.1 = k then some p.2 else dictGet rest k

/-- Python dict assignment `d[k] = v`: replaces the value in place when the key
exists, otherwise appends the new entry. -/
def dictSet {κ α : Type} [DecidableEq κ] : List (κ × α) → κ → α → List (κ × α)
  | [], k, v => [(k, v)]
  | p :: rest, k, v => if p.1 = k then (k, v) :: rest else p :: dictSet rest k v

/-- A live Blender node, restricted to the attributes the core reads
(`node_id`, `name`). -/
structure BlNode where
  node_id : String
  name : String
  deriving DecidableEq, Repr

/-- A live Blender link, restricted to the four identities the core reads
(`from_socket.socket_id`, `to_socket.socket_id`, `from_node.node_id`,
`to_node.node_id`). -/
structure BlLink where
  from_socket_id : String
  to_socket_id : String
  from_node_id : String
  to_node_id : String
  deriving DecidableEq, Repr

/-- A live Blender `NodeTree` of the Sverchok type, as seen through the
attributes the core reads (`tree_id`, `nodes`, `links`). -/
structure BlTree where
  tree_id : String
  nodes : List BlNode
  links : List BlLink
  deriving DecidableEq, Repr

/-- Exceptions the embedded code can raise. -/
inductive Err where
  | runtimeError
  | lookupError
  | keyError
  | attributeError
  | callbackError
  | recomputeError
  deriving DecidableEq, Repr

/-- Decidable equality for `Except` results, so that concrete runs of the
fallible operations can be checked by `decide`. -/
instance exceptDecEq {ε α : Type} [DecidableEq ε] [DecidableEq α] :
    DecidableEq (Except ε α) := fun a b =>
  match a, b with
  | .ok x, .ok y =>
    if h : x = y then .isTrue (by rw [h]) else .isFalse (fun hc => h (Except.ok.inj hc))
  | .error x, .error y =>
    if h : x = y then .isTrue (by rw [h]) else .isFalse (fun hc => h (Except.error.inj hc))
  | .ok _, .error _ => .isFalse (fun hc => Except.noConfusion hc)
  | .error _, .ok _ => .isFalse (fun hc => Except.noConfusion hc)

/-- The `SvLink` record.  The source's NamedTuple holds object references to
the two endpoint `SvNode`s; the embedding stores their identities. -/
structure SvLink where
  id : String
  from_node : String
  to_node : String
  deriving DecidableEq, Repr

/-- The `SvNode` record: id, display name, and the two link dicts. -/
structure SvNode where
  id : String
  name : String
  inputs : List (String × SvLink)
  outputs : List (String × SvLink)
  deriving DecidableEq, Repr

/-- The `SvTree` shadow graph.  `nodes` embeds `NodesCollection._nodes` and
`links` embeds `LinksCollection._links`.  The id is optional because the
registry key is the (possibly absent) tree of a wave's first event. -/
structure SvTree where
  id : Option String
  nodes : List (String × SvNode)
  links : List (String × SvLink)
  deriving DecidableEq, Repr

/-- The `NodesCollection.add` method: install a fresh `SvNode` under the live
node's id. -/
def SvTree.nodesAdd (t : SvTree) (node : BlNode) : SvTree :=
  {t with nodes := dictSet t.nodes node.node_id ⟨node.node_id, node.name, [], []⟩}

/-- In-place mutation of the `SvNode` object stored under `nid`: the source
mutates the shared object, the embedding rewrites the dict entry. -/
def SvTree.modifyNode (t : SvTree) (nid : String) (f : SvNode → SvNode) : SvTree :=
  {t with nodes := t.nodes.map fun p => if p.1 = nid then (p.1, f p.2) else p}

/-- The `LinksCollection.add` method: derive the link id as the concatenation
of the two socket ids, fetch both endpoint nodes (`KeyError` when absent),
install the link in the from-node's `outputs`, the to-node's `inputs`, and the
tree's link dict.  Sequential `modifyNode` calls reproduce the source's
aliasing when both endpoints are the same object. -/
def SvTree.linksAdd (t : SvTree) (link : BlLink) : Except Err SvTree :=
  let link_id := link.from_socket_id ++ link.to_socket_id
  match dictGet t.nodes link.from_node_id, dictGet t.nodes link.to_node_id with
  | some _, some _ =>
    let sv_link : SvLink := ⟨link_id, link.from_node_id, link.to_node_id⟩
    let t1 := t.modifyNode link.from_node_id
      fun n => {n with outputs := dictSet n.outputs link_id sv_link}
    let t2 := t1.modifyNode link.to_node_id
      fun n => {n with inputs := dictSet n.inputs link_id sv_link}
    .ok {t2 with links := dictSet t2.links link_id sv_link}
  | _, _ => .error .keyError

/-- The `SvTree.get_blender_tree` method: linear search of
`bpy.data.node_groups` (already restricted here to the Sverchok-typed trees,
matching the `bl_idname` filter) for a matching `tree_id`; `LookupError` when
none matches. -/
def SvTree.get_blender_tree (t : SvTree) (node_groups : List BlTree) : Except Err BlTree :=
  match node_groups.find? (fun ng => t.id = some ng.tree_id) with
  | some ng => .ok ng
  | none => .error .lookupError

/-- The `SvTree.total_reconstruction` method: fetch the live tree, add every
live node, then add every live link.  A `KeyError` part-way through the link
loop abandons the remaining additions (the source would keep the partial
in-place mutations; no claim observes the shadow after such a failure). -/
def SvTree.total_reconstruction (t : SvTree) (node_groups : List BlTree) : Except Err SvTree := do
  let bl_tree ← t.get_blender_tree node_groups
  let t1 := bl_tree.nodes.foldl SvTree.nodesAdd t
  bl_tree.links.foldlM SvTree.linksAdd t1

/-- The `SvTree.need_total_reconstruction` method: `bool(len(self.nodes))`. -/
def SvTree.need_total_reconstruction (t : SvTree) : Bool :=
  t.nodes.length != 0

/-- The `SvTree.update_reconstruction` method.  The `sv_event` argument is
never read by the source body; the `else` branch is `pass`; the debug-mode
correctness check only prints. -/
def SvTree.update_reconstruction (t : SvTree) (node_groups : List BlTree) : Except Err SvTree :=
  if t.need_total_reconstruction then t.total_reconstruction node_groups else .ok t

/-- The `BlenderEvent` NamedTuple.  `tree` holds the live tree object carried
by the signal (embedded by value); `node` and `link` are embedded by identity;
`update_function` together with its captured `function_arguments` is an opaque
callback token resolved by the environment. -/
structure BlenderEvent where
  type : BlenderEventsTypes
  tree : Option BlTree := none
  node : Option String := none
  link : Option String := none
  update_function : Option Nat := none
  deriving DecidableEq, Repr

/-- The `SverchokEvent` NamedTuple, with the same field embedding as
`BlenderEvent`. -/
structure SverchokEvent where
  type : SverchokEventsTypes
  tree : Option BlTree := none
  node : Option String := none
  link : Option String := none
  update_function : Option Nat := none
  deriving DecidableEq, Repr

/-- The `BlenderEvent.is_wave_end` property. -/
def BlenderEvent.is_wave_end (e : BlenderEvent) : Bool :=
  IS_WAVE_END e.type

/-- The `BlenderEvent.convert_to_sverchok_event` method. -/
def BlenderEvent.convert_to_sverchok_event (e : BlenderEvent) : SverchokEvent :=
  ⟨EVENT_CONVERSION e.type, e.tree, e.node, e.link, e.update_function⟩

/-- The `EventsWave` class: the buffered event list plus the four coarse flags
declared in `__init__`.  (The source never assigns the flags after
construction: `analyze_changes` binds same-named local variables and discards
them.) -/
structure EventsWave where
  events_wave : List BlenderEvent
  links_was_added : Bool
  links_was_removed : Bool
  reroutes_was_added : Bool
  reroutes_was_removed : Bool
  deriving DecidableEq, Repr

/-- The `EventsWave()` constructor. -/
def EventsWave.new : EventsWave :=
  ⟨[], false, false, false, false⟩

/-- The `EventsWave.add_event` method: `node_update` events are filtered out as
non-informative, everything else is appended. -/
def EventsWave.add_event (w : EventsWave) (bl_event : BlenderEvent) : EventsWave :=
  if bl_event.type = .node_update then w
  else {w with events_wave := w.events_wave ++ [bl_event]}

/-- The `EventsWave.is_end` method:
`self.events_wave and self.events_wave[-1].is_wave_end` (the empty list
short-circuits to a falsy value, embedded as `false`). -/
def EventsWave.is_end (w : EventsWave) : Bool :=
  match w.events_wave.getLast? with
  | none => false
  | some e => e.is_wave_end

/-- Modelled from the spec: `EventsWave.convert_known_events` and the
`search_*` helpers it depends on are declared in the source with unimplemented
bodies.  Per the spec's classification policy, a topology-terminated wave is
classified by diffing the live graph's node/link identity sets against the
shadow snapshot: node-added events for exactly the new node identities,
node-freed events for exactly the vanished ones, and link-topology-changed
events for the link identity set difference. -/
def convert_known_events (shadow : SvTree) (live : BlTree) : List SverchokEvent :=
  let shadow_node_ids := shadow.nodes.map Prod.fst
  let live_node_ids := live.nodes.map BlNode.node_id
  let shadow_link_ids := shadow.links.map Prod.fst
  let live_link_ids := live.links.map (fun l => l.from_socket_id ++ l.to_socket_id)
  let added_nodes := live_node_ids.filter (fun i => decide (i ∉ shadow_node_ids))
  let freed_nodes := shadow_node_ids.filter (fun i => decide (i ∉ live_node_ids))
  let added_links := live_link_ids.filter (fun i => decide (i ∉ shadow_link_ids))
  let freed_links := shadow_link_ids.filter (fun i => decide (i ∉ live_link_ids))
  (added_nodes.map fun i => (⟨.add_node, none, some i, none, none⟩ : SverchokEvent)) ++
  (freed_nodes.map fun i => (⟨.free_node, none, some i, none, none⟩ : SverchokEvent)) ++
  ((added_links ++ freed_links).map
    fun i => (⟨.node_link_update, none, none, some i, none⟩ : SverchokEvent))

/-- The `EventsWave.convert_to_sverchok_events` method.  It raises
`RuntimeError` before the wave has ended.  A wave whose last event is
`tree_update`/`monad_tree_update` runs `analyze_changes` — whose only
state-visible effect is the `AttributeError` from reading `.links` of a `None`
first-event tree, its computed flags being discarded locals — followed by the
spec-modelled `convert_known_events` diff against the first event's tree.  Any
other ended wave converts event-by-event through the lookup table. -/
def EventsWave.convert_to_sverchok_events (w : EventsWave) (shadow : SvTree) :
    Except Err (List SverchokEvent) :=
  if w.is_end then
    match w.events_wave.getLast? with
    | none => .error .runtimeError
    | some lastEv =>
      if lastEv.type = .tree_update ∨ lastEv.type = .monad_tree_update then
        match w.events_wave.head? with
        | none => .error .runtimeError
        | some firstEv =>
          match firstEv.tree with
          | none => .error .attributeError
          | some live => .ok (convert_known_events shadow live)
      else
        .ok (w.events_wave.map BlenderEvent.convert_to_sverchok_event)
  else .error .runtimeError

/-- Observable calls out of the core: the invocation of one property-update
redraw callback, and the single `process_from_nodes` call per dispatch. -/
inductive Action where
  | redraw (cb : Nat)
  | recompute (nodes : List (Option String))
  deriving DecidableEq, Repr

/-- External collaborators of the dispatch: the Sverchok trees visible in
`bpy.data.node_groups`, and whether a given redraw callback / the recompute
engine returns normally (`false` means it raises). -/
structure Env where
  node_groups : List BlTree
  cb_ok : Nat → Bool
  recompute_ok : List (Option String) → Bool

/-- The mutable class state of `CurrentEvents` (`events_wave`,
`_to_listen_new_events`) plus the `NodeTreesReconstruction.node_trees`
registry. -/
structure GState where
  events_wave : EventsWave
  to_listen_new_events : Bool
  node_trees : List (Option String × SvTree)
  deriving DecidableEq, Repr

/-- The state at module load: fresh wave, listening, empty registry. -/
def initState : GState :=
  ⟨EventsWave.new, true, []⟩

/-- What one entry point returns: the class state afterwards, the external
calls made, and the exception that escaped, if any (Python class attributes
keep their values when an exception propagates out). -/
structure DispatchResult where
  state : GState
  trace : List Action
  error : Option Err
  deriving DecidableEq, Repr

/-- Modelled from the spec:
`NodeTreesReconstruction.get_node_tree_reconstruction` is declared in the
source with an unimplemented body.  Per the spec, shadow graphs live in a
process-wide registry keyed by the graph's stable identifier and are created
lazily (empty) on first reference. -/
def get_node_tree_reconstruction (reg : List (Option String × SvTree)) (key : Option String) :
    SvTree × List (Option String × SvTree) :=
  match dictGet reg key with
  | some t => (t, reg)
  | none => (⟨key, [], []⟩, dictSet reg key ⟨key, [], []⟩)

/-- The registry key used by `EventsWave.previous_tree`: the identity of the
wave's first event's tree (the source keys the registry by the tree object). -/
def wave_tree_key (w : EventsWave) : Option String :=
  match w.events_wave.head? with
  | some e => e.tree.map BlTree.tree_id
  | none => none

/-- The `SverchokEvent.redraw_node` method: call the update function when one
is present (debug printing omitted). -/
def redraw_node (cb_ok : Nat → Bool) (e : SverchokEvent) : Except Err (List Action) :=
  match e.update_function with
  | none => .ok []
  | some f => if cb_ok f then .ok [.redraw f] else .error .callbackError

/-- The `CurrentEvents.redraw_nodes` method: invoke each event's callback in
wave order; the returned trace lists the calls made before any exception. -/
def redraw_nodes (cb_ok : Nat → Bool) : List SverchokEvent → List Action × Option Err
  | [] => ([], none)
  | e :: rest =>
    match redraw_node cb_ok e with
    | .error err => ([], some err)
    | .ok acts => (acts ++ (redraw_nodes cb_ok rest).1, (redraw_nodes cb_ok rest).2)

/-- The `CurrentEvents.update_nodes` method:
`process_from_nodes([ev.node for ev in sverchok_events if ev.type != free_node])`. -/
def update_nodes (recompute_ok : List (Option String) → Bool)
    (sverchok_events : List SverchokEvent) : Except Err Action :=
  let ns := (sverchok_events.filter
    (fun e => e.type != SverchokEventsTypes.free_node)).map SverchokEvent.node
  if recompute_ok ns then .ok (.recompute ns) else .error .recomputeError

/-- Body of `CurrentEvents.handle_new_event` after the early return and the
lowering of the flag: classify, reconcile, redraw, recompute.  The registry
lookup the source performs lazily inside `previous_tree` is done once up
front, with the same lazy-creation effect; the write-back of the reconciled
shadow embeds the source's in-place mutation of the registry entry.  The two
final assignments — flag raised again, fresh wave installed — run only on the
straight-line success path: the source has no `try/finally`. -/
def dispatch (env : Env) (s1 : GState) : DispatchResult :=
  let pair := get_node_tree_reconstruction s1.node_trees (wave_tree_key s1.events_wave)
  let s2 : GState := {s1 with node_trees := pair.2}
  match s2.events_wave.convert_to_sverchok_events pair.1 with
  | .error err => ⟨s2, [], some err⟩
  | .ok sv_events =>
    match pair.1.update_reconstruction env.node_groups with
    | .error err => ⟨s2, [], some err⟩
    | .ok shadow1 =>
      let s3 : GState :=
        {s2 with node_trees := dictSet s2.node_trees (wave_tree_key s1.events_wave) shadow1}
      match redraw_nodes env.cb_ok sv_events with
      | (tr, some err) => ⟨s3, tr, some err⟩
      | (tr, none) =>
        match update_nodes env.recompute_ok sv_events with
        | .error err => ⟨s3, tr, some err⟩
        | .ok act => ⟨⟨EventsWave.new, true, s3.node_trees⟩, tr ++ [act], none⟩

/-- The `CurrentEvents.handle_new_event` classmethod: return unless the wave
has ended; otherwise lower the suppression flag and run the pipeline. -/
def handle_new_event (env : Env) (s : GState) : DispatchResult :=
  if s.events_wave.is_end then
    dispatch env {s with to_listen_new_events := false}
  else ⟨s, [], none⟩

/-- The `CurrentEvents.add_new_event` classmethod: drop the event while the
suppression flag is lowered, otherwise append it to the wave and check for a
wave end (debug printing omitted). -/
def add_new_event (env : Env) (s : GState) (bl_event : BlenderEvent) : DispatchResult :=
  if s.to_listen_new_events then
    handle_new_event env {s with events_wave := s.events_wave.add_event bl_event}
  else ⟨s, [], none⟩

/-- Ingest a list of raw events in order, accumulating the external calls; an
escaped exception ends the run. -/
def ingest_all (env : Env) (s : GState) : List BlenderEvent → DispatchResult
  | [] => ⟨s, [], none⟩
  | e :: rest =>
    match add_new_event env s e with
    | ⟨s1, tr, some err⟩ => ⟨s1, tr, some err⟩
    | ⟨s1, tr, none⟩ =>
      match ingest_all env s1 rest with
      | ⟨s2, tr2, err⟩ => ⟨s2, tr ++ tr2, err⟩

/-- Whether an external call is the recomputation-engine invocation. -/
def Action.isRecompute : Action → Bool
  | .recompute _ => true
  | .redraw _ => false

/-- Concrete live tree used by witnesses: one node `b`. -/
def exLive : BlTree := ⟨("T"), [⟨("b"), ("B")⟩], []⟩

/-- Concrete shadow used by witnesses: one node `a`. -/
def exShadow : SvTree := ⟨some ("T"), [(("a"), ⟨("a"), ("A"), [], []⟩)], []⟩

/-- Concrete topology-terminated wave used by witnesses. -/
def exTopWave : EventsWave :=
  ⟨[⟨.tree_update, some exLive, none, none, none⟩], false, false, false, false⟩

/-! ### Helper lemmas -/

theorem add_event_of_node_update (w : EventsWave) (e : BlenderEvent)
    (h : e.type = .node_update) : w.add_event e = w := by
  unfold EventsWave.add_event
  rw [if_pos h]

theorem add_event_of_ne (w : EventsWave) (e : BlenderEvent)
    (h : e.type ≠ .node_update) :
    w.add_event e = {w with events_wave := w.events_wave ++ [e]} := by
  unfold EventsWave.add_event
  rw [if_neg h]

theorem getLast?_concat_eq {α : Type} (l : List α) (a : α) :
    (l ++ [a]).getLast? = some a := by
  rw [List.getLast?_append_cons]
  rfl

theorem is_end_add_event (w : EventsWave) (e : BlenderEvent)
    (h : e.type ≠ .node_update) :
    (w.add_event e).is_end = e.is_wave_end := by
  rw [add_event_of_ne w e h]
  unfold EventsWave.is_end
  simp only [getLast?_concat_eq]

theorem is_end_of_nil_events (w : EventsWave) (h : w.events_wave = []) :
    w.is_end = false := by
  unfold EventsWave.is_end
  rw [h]
  rfl

theorem is_wave_end_ne_node_update (e : BlenderEvent)
    (h : e.is_wave_end = true) : e.type ≠ .node_update := by
  intro hc
  unfold BlenderEvent.is_wave_end at h
  rw [hc] at h
  simp [IS_WAVE_END] at h

theorem redraw_nodes_ok_trace (cb : Nat → Bool) (evs : List SverchokEvent)
    (h : (redraw_nodes cb evs).2 = none) :
    (redraw_nodes cb evs).1 = evs.filterMap (fun e => e.update_function.map Action.redraw) := by
  revert h
  induction evs with
  | nil => intro h; rfl
  | cons e rest ih =>
    intro h
    unfold redraw_nodes at h ⊢
    cases hf : e.update_function with
    | none =>
      have hn : redraw_node cb e = .ok [] := by
        unfold redraw_node
        rw [hf]
      rw [hn] at h ⊢
      simp only [List.nil_append] at h ⊢
      rw [ih h]
      simp [List.filterMap_cons, hf]
    | some f =>
      cases hcb : cb f with
      | true =>
        have hn : redraw_node cb e = .ok [Action.redraw f] := by
          unfold redraw_node
          rw [hf]
          simp [hcb]
        rw [hn] at h ⊢
        simp only [] at h ⊢
        rw [ih h]
        simp [List.filterMap_cons, hf]
      | false =>
        have hn : redraw_node cb e = .error Err.callbackError := by
          unfold redraw_node
          rw [hf]
          simp [hcb]
        rw [hn] at h
        simp at h

theorem dispatch_success_shape (env : Env) (s1 : GState)
    (hok : (dispatch env s1).error = none) :
    ∃ sv_events : List SverchokEvent,
      s1.events_wave.convert_to_sverchok_events
        (get_node_tree_reconstruction s1.node_trees (wave_tree_key s1.events_wave)).1
        = .ok sv_events ∧
      (dispatch env s1).state.to_listen_new_events = true ∧
      (dispatch env s1).state.events_wave = EventsWave.new ∧
      (dispatch env s1).trace =
        sv_events.filterMap (fun e => e.update_function.map Action.redraw) ++
        [Action.recompute ((sv_events.filter
          (fun e => e.type != SverchokEventsTypes.free_node)).map SverchokEvent.node)] := by
  unfold dispatch at hok ⊢
  simp only [] at hok ⊢
  cases hc : s1.events_wave.convert_to_sverchok_events
      (get_node_tree_reconstruction s1.node_trees (wave_tree_key s1.events_wave)).1 with
  | error err =>
    rw [hc] at hok
    simp only [] at hok
    exact Option.noConfusion hok
  | ok sv_events =>
    rw [hc] at hok
    simp only [] at hok ⊢
    cases hu : (get_node_tree_reconstruction s1.node_trees
        (wave_tree_key s1.events_wave)).1.update_reconstruction env.node_groups with
    | error err =>
      rw [hu] at hok
      simp only [] at hok
      exact Option.noConfusion hok
    | ok shadow1 =>
      rw [hu] at hok
      simp only [] at hok ⊢
      rcases hr : redraw_nodes env.cb_ok sv_events with ⟨tr, e2⟩
      cases e2 with
      | some err =>
        rw [hr] at hok
        simp only [] at hok
        exact Option.noConfusion hok
      | none =>
        rw [hr] at hok
        simp only [] at hok ⊢
        have htr : tr = sv_events.filterMap (fun e => e.update_function.map Action.redraw) := by
          have h2 := redraw_nodes_ok_trace env.cb_ok sv_events (by rw [hr])
          rw [hr] at h2
          exact h2
        unfold update_nodes at hok ⊢
        simp only [] at hok ⊢
        cases hrec : env.recompute_ok ((sv_events.filter
            (fun e => e.type != SverchokEventsTypes.free_node)).map SverchokEvent.node) with
        | false =>
          rw [hrec] at hok
          simp at hok
        | true =>
          rw [hrec] at hok
          refine ⟨sv_events, rfl, ?_, ?_, ?_⟩ <;> simp [htr]

theorem convert_non_topology (w : EventsWave) (shadow : SvTree) (lastEv : BlenderEvent)
    (hlast : w.events_wave.getLast? = some lastEv)
    (hterm : IS_WAVE_END lastEv.type = true)
    (hnt1 : lastEv.type ≠ .tree_update) (hnt2 : lastEv.type ≠ .monad_tree_update) :
    w.convert_to_sverchok_events shadow =
      .ok (w.events_wave.map BlenderEvent.convert_to_sverchok_event) := by
  have hend : w.is_end = true := by
    unfold EventsWave.is_end
    rw [hlast]
    exact hterm
  unfold EventsWave.convert_to_sverchok_events
  rw [hend, if_pos rfl, hlast]
  show (if lastEv.type = BlenderEventsTypes.tree_update ∨
      lastEv.type = BlenderEventsTypes.monad_tree_update then _ else _) = _
  rw [if_neg (fun hc => Or.elim hc hnt1 hnt2)]

theorem ingest_non_terms (env : Env) (pre : List BlenderEvent) :
    (∀ e ∈ pre, IS_WAVE_END e.type = false) →
    ∀ s : GState, s.to_listen_new_events = true → s.events_wave.is_end = false →
      (ingest_all env s pre).error = none ∧
      (ingest_all env s pre).trace = [] ∧
      (ingest_all env s pre).state.to_listen_new_events = true ∧
      (ingest_all env s pre).state.events_wave.is_end = false := by
  induction pre with
  | nil =>
    intro hpre s hl hw
    exact ⟨rfl, rfl, hl, hw⟩
  | cons e rest ih =>
    intro hpre s hl hw
    have he : IS_WAVE_END e.type = false := hpre e (List.mem_cons_self e rest)
    have hend2 : (s.events_wave.add_event e).is_end = false := by
      by_cases hnu : e.type = .node_update
      · rw [add_event_of_node_update _ _ hnu]
        exact hw
      · rw [is_end_add_event _ _ hnu]
        exact he
    have hs1 : add_new_event env s e =
        ⟨{s with events_wave := s.events_wave.add_event e}, [], none⟩ := by
      unfold add_new_event
      rw [hl, if_pos rfl]
      unfold handle_new_event
      show (if (s.events_wave.add_event e).is_end then _ else _) = _
      rw [hend2]
      rfl
    obtain ⟨h1, h2, h3, h4⟩ := ih (fun x hx => hpre x (List.mem_cons_of_mem e hx))
      {s with events_wave := s.events_wave.add_event e} hl hend2
    unfold ingest_all
    rw [hs1]
    simp only []
    rcases hres : ingest_all env {s with events_wave := s.events_wave.add_event e} rest
      with ⟨s2, tr2, er2⟩
    rw [hres] at h1 h2 h3 h4
    simp only [] at h1 h2 h3 h4
    simp [h1, h2, h3, h4]

theorem ingest_all_append_one (env : Env) (pre : List BlenderEvent) (t : BlenderEvent) :
    ∀ s : GState, (ingest_all env s pre).error = none →
      ingest_all env s (pre ++ [t]) =
        ⟨(add_new_event env (ingest_all env s pre).state t).state,
         (ingest_all env s pre).trace ++ (add_new_event env (ingest_all env s pre).state t).trace,
         (add_new_event env (ingest_all env s pre).state t).error⟩ := by
  induction pre with
  | nil =>
    intro s h
    show ingest_all env s [t] = _
    unfold ingest_all
    rcases ha : add_new_event env s t with ⟨s1, tr, err⟩
    cases err with
    | some er => simp
    | none => simp [ingest_all]
  | cons e rest ih =>
    intro s h
    simp only [List.cons_append]
    unfold ingest_all at h ⊢
    rcases ha : add_new_event env s e with ⟨s1, tr, err⟩
    rw [ha] at h
    cases err with
    | some er =>
      simp only [] at h
      exact Option.noConfusion h
    | none =>
      simp only [] at h ⊢
      rcases hr : ingest_all env s1 rest with ⟨s2, tr2, er2⟩
      rw [hr] at h
      simp only [] at h
      subst h
      have hih := ih s1 (by rw [hr])
      rw [hih, hr]
      simp [List.append_assoc]

theorem filter_isRecompute_redraws (evs : List SverchokEvent) :
    ((evs.filterMap (fun e => e.update_function.map Action.redraw)).filter
      Action.isRecompute) = [] := by
  induction evs with
  | nil => rfl
  | cons e rest ih =>
    cases hf : e.update_function with
    | none => simp [List.filterMap_cons, hf, ih]
    | some f => simp [List.filterMap_cons, hf, ih, Action.isRecompute]

/-! ### Claim theorems -/

/-- C7: a wave is ended exactly when the last event of its buffer (its most
recently appended event, since `node_update` events are never appended) is one
of the five terminator kinds — `tree_update`, `monad_tree_update`, `undo`,
`frame_change`, `node_property_update` — and appending any of the four
non-terminator buffered kinds never ends the wave. -/
theorem wave_end_characterization :
    (∀ t : BlenderEventsTypes, IS_WAVE_END t = true ↔
      (t = .tree_update ∨ t = .monad_tree_update ∨ t = .undo ∨
       t = .frame_change ∨ t = .node_property_update)) ∧
    (∀ w : EventsWave, w.is_end = true ↔
      ∃ e, w.events_wave.getLast? = some e ∧ IS_WAVE_END e.type = true) ∧
    (∀ (w : EventsWave) (e : BlenderEvent), IS_WAVE_END e.type = true →
      (w.add_event e).is_end = true) ∧
    (∀ (w : EventsWave) (e : BlenderEvent),
      (e.type = .add_node ∨ e.type = .copy_node ∨ e.type = .free_node ∨
       e.type = .add_link_to_node) →
      (w.add_event e).is_end = false) := by
  refine ⟨?_, ?_, ?_, ?_⟩
  · intro t
    cases t <;> simp [IS_WAVE_END]
  · intro w
    unfold EventsWave.is_end
    cases h : w.events_wave.getLast? with
    | none => simp
    | some e => simp [BlenderEvent.is_wave_end]
  · intro w e h
    have hne : e.type ≠ .node_update := is_wave_end_ne_node_update e h
    rw [is_end_add_event w e hne]
    exact h
  · intro w e h
    have hne : e.type ≠ .node_update := by
      rcases h with h | h | h | h <;> rw [h] <;> intro hc <;> cases hc
    rw [is_end_add_event w e hne]
    unfold BlenderEvent.is_wave_end
    rcases h with h | h | h | h <;> rw [h] <;> rfl

/-- Witness for C7 at concrete events. -/
theorem wave_end_characterization_witness :
    (EventsWave.new.add_event ⟨.tree_update, none, none, none, none⟩).is_end = true ∧
    (EventsWave.new.add_event ⟨.add_node, none, none, none, none⟩).is_end = false :=
  ⟨wave_end_characterization.2.2.1 EventsWave.new
      ⟨.tree_update, none, none, none, none⟩ (by decide),
   wave_end_characterization.2.2.2 EventsWave.new
      ⟨.add_node, none, none, none, none⟩ (Or.inl rfl)⟩

/-- C9: ingesting a raw event of the filtered non-informative `node_update`
kind leaves the wave buffer unchanged (same length and same elements), in
every wave state. -/
theorem node_update_ingest_noop (w : EventsWave) (e : BlenderEvent)
    (h : e.type = .node_update) : w.add_event e = w := by
  unfold EventsWave.add_event
  rw [if_pos h]

/-- Witness for C9 at a concrete event and wave. -/
theorem node_update_ingest_noop_witness :
    EventsWave.new.add_event ⟨.node_update, none, none, none, none⟩ = EventsWave.new :=
  node_update_ingest_noop EventsWave.new ⟨.node_update, none, none, none, none⟩ rfl

/-- C6: calling `convert_to_sverchok_events` on a wave that has not ended —
its buffer is empty, or its last event is not of a terminator kind — returns
the `RuntimeError` to the caller instead of a result. -/
theorem convert_before_end_raises (w : EventsWave) (shadow : SvTree)
    (h : w.events_wave = [] ∨
      ∀ e : BlenderEvent, w.events_wave.getLast? = some e → IS_WAVE_END e.type = false) :
    w.convert_to_sverchok_events shadow = .error .runtimeError := by
  have hend : w.is_end = false := by
    unfold EventsWave.is_end
    rcases h with h | h
    · rw [h]
      rfl
    · cases heq : w.events_wave.getLast? with
      | none => rfl
      | some e => exact h e heq
  unfold EventsWave.convert_to_sverchok_events
  rw [hend]
  rfl

/-- Witness for C6: the fresh empty wave. -/
theorem convert_before_end_raises_witness :
    EventsWave.new.convert_to_sverchok_events ⟨none, [], []⟩ = .error .runtimeError :=
  convert_before_end_raises EventsWave.new ⟨none, [], []⟩ (Or.inl rfl)

/-- C2 (code bug): `need_total_reconstruction` is `bool(len(self.nodes))`,
true exactly when the shadow is non-empty — the inverse of the claimed
condition.  On a fresh empty shadow with a non-empty live tree,
`update_reconstruction` returns the shadow unchanged (still empty); on a
non-empty shadow it performs the wholesale `total_reconstruction`, not an
incremental update. -/
theorem reconstruction_condition_inverted :
    ((⟨some ("T"), [], []⟩ : SvTree).need_total_reconstruction = false ∧
     (⟨some ("T"), [], []⟩ : SvTree).update_reconstruction
       [⟨("T"), [⟨("n1"), ("N1")⟩], []⟩] = .ok ⟨some ("T"), [], []⟩) ∧
    ((⟨some ("T"), [(("n1"), ⟨("n1"), ("N1"), [], []⟩)], []⟩ : SvTree).need_total_reconstruction
        = true ∧
     (⟨some ("T"), [(("n1"), ⟨("n1"), ("N1"), [], []⟩)], []⟩ : SvTree).update_reconstruction
       [⟨("T"), [⟨("n1"), ("N1")⟩], []⟩] =
       (⟨some ("T"), [(("n1"), ⟨("n1"), ("N1"), [], []⟩)], []⟩ : SvTree).total_reconstruction
       [⟨("T"), [⟨("n1"), ("N1")⟩], []⟩]) := by
  decide

/-- C1 (code bug): `handle_new_event` has no `try/finally`; when the redraw
callback of a property-update terminator raises, the exception escapes with
`_to_listen_new_events` still `False`, and a later terminator event is then
silently dropped — the scheduler stays wedged. -/
theorem guard_not_released_on_error :
    (add_new_event ⟨[], fun _ => false, fun _ => true⟩ initState
        ⟨.node_property_update, none, none, none, some 0⟩).error = some .callbackError ∧
    (add_new_event ⟨[], fun _ => false, fun _ => true⟩ initState
        ⟨.node_property_update, none, none, none, some 0⟩).state.to_listen_new_events = false ∧
    add_new_event ⟨[], fun _ => false, fun _ => true⟩
      (add_new_event ⟨[], fun _ => false, fun _ => true⟩ initState
        ⟨.node_property_update, none, none, none, some 0⟩).state
      ⟨.tree_update, none, none, none, none⟩ =
      ⟨(add_new_event ⟨[], fun _ => false, fun _ => true⟩ initState
        ⟨.node_property_update, none, none, none, some 0⟩).state, [], none⟩ := by
  decide

/-- C3: classification of an ended wave whose last event is a `tree_update` or
`monad_tree_update` terminator returns, through the spec-modelled diff,
node-added events for exactly the live-minus-shadow node identities,
node-freed events for exactly the shadow-minus-live node identities, and
link-topology-changed events for exactly the link identity set difference. -/
theorem topology_wave_diff_exact (w : EventsWave) (shadow : SvTree)
    (lastEv firstEv : BlenderEvent) (live : BlTree)
    (hlast : w.events_wave.getLast? = some lastEv)
    (htype : lastEv.type = .tree_update ∨ lastEv.type = .monad_tree_update)
    (hfirst : w.events_wave.head? = some firstEv)
    (htree : firstEv.tree = some live) :
    w.convert_to_sverchok_events shadow = .ok (convert_known_events shadow live) ∧
    ((convert_known_events shadow live).filterMap
        (fun e => if e.type = SverchokEventsTypes.add_node then e.node else none)).toFinset =
      (live.nodes.map BlNode.node_id).toFinset \ (shadow.nodes.map Prod.fst).toFinset ∧
    ((convert_known_events shadow live).filterMap
        (fun e => if e.type = SverchokEventsTypes.free_node then e.node else none)).toFinset =
      (shadow.nodes.map Prod.fst).toFinset \ (live.nodes.map BlNode.node_id).toFinset ∧
    ((convert_known_events shadow live).filterMap
        (fun e => if e.type = SverchokEventsTypes.node_link_update then e.link else none)).toFinset =
      ((live.links.map (fun l => l.from_socket_id ++ l.to_socket_id)).toFinset \
        (shadow.links.map Prod.fst).toFinset) ∪
      ((shadow.links.map Prod.fst).toFinset \
        (live.links.map (fun l => l.from_socket_id ++ l.to_socket_id)).toFinset) := by
  refine ⟨?_, ?_, ?_, ?_⟩
  · have hend : w.is_end = true := by
      unfold EventsWave.is_end
      rw [hlast]
      show IS_WAVE_END lastEv.type = true
      rcases htype with h | h <;> rw [h] <;> rfl
    unfold EventsWave.convert_to_sverchok_events
    rw [hend]
    rw [if_pos rfl]
    rw [hlast]
    show (if lastEv.type = BlenderEventsTypes.tree_update ∨
        lastEv.type = BlenderEventsTypes.monad_tree_update then _ else _) = _
    rw [if_pos htype, hfirst]
    show (match firstEv.tree with
      | none => Except.error Err.attributeError
      | some live => Except.ok (convert_known_events shadow live)) = _
    rw [htree]
  · unfold convert_known_events
    ext a
    simp [List.mem_filterMap, List.mem_filter, List.mem_append, List.mem_map,
      Finset.mem_sdiff, List.mem_toFinset]
  · unfold convert_known_events
    ext a
    simp [List.mem_filterMap, List.mem_filter, List.mem_append, List.mem_map,
      Finset.mem_sdiff, List.mem_toFinset]
  · unfold convert_known_events
    ext a
    simp [List.mem_filterMap, List.mem_filter, List.mem_append, List.mem_map,
      Finset.mem_sdiff, Finset.mem_union, List.mem_toFinset]

/-- Witness for C3 at a concrete shadow/live pair. -/
theorem topology_wave_diff_exact_witness :
    exTopWave.convert_to_sverchok_events exShadow
        = .ok (convert_known_events exShadow exLive) ∧
    ((convert_known_events exShadow exLive).filterMap
        (fun e => if e.type = SverchokEventsTypes.add_node then e.node else none)).toFinset =
      (exLive.nodes.map BlNode.node_id).toFinset \ (exShadow.nodes.map Prod.fst).toFinset ∧
    ((convert_known_events exShadow exLive).filterMap
        (fun e => if e.type = SverchokEventsTypes.free_node then e.node else none)).toFinset =
      (exShadow.nodes.map Prod.fst).toFinset \ (exLive.nodes.map BlNode.node_id).toFinset ∧
    ((convert_known_events exShadow exLive).filterMap
        (fun e => if e.type = SverchokEventsTypes.node_link_update then e.link else none)).toFinset =
      ((exLive.links.map (fun l => l.from_socket_id ++ l.to_socket_id)).toFinset \
        (exShadow.links.map Prod.fst).toFinset) ∪
      ((exShadow.links.map Prod.fst).toFinset \
        (exLive.links.map (fun l => l.from_socket_id ++ l.to_socket_id)).toFinset) :=
  topology_wave_diff_exact exTopWave exShadow
    ⟨.tree_update, some exLive, none, none, none⟩
    ⟨.tree_update, some exLive, none, none, none⟩ exLive
    rfl (Or.inl rfl) rfl rfl

/-- C8 counterexample: for a wave consisting of the single `undo` raw event,
the dispatch invokes the recomputation engine with the one-element list
holding that event's absent node reference, not with the empty list. -/
theorem undo_wave_recompute_not_empty :
    (add_new_event ⟨[], fun _ => true, fun _ => true⟩ initState
        ⟨.undo, none, none, none, none⟩).trace = [Action.recompute [none]] ∧
    Action.recompute [none] ≠ Action.recompute [] := by
  decide

/-- C4: ingesting any sequence of non-terminator raw events followed by one
terminator, from the initial state, makes no external call before the
terminator, and — when the dispatch raises no error — invokes the
recomputation engine exactly once and leaves a fresh empty wave with
ingestion re-enabled. -/
theorem single_cycle_per_wave (env : Env) (pre : List BlenderEvent) (t : BlenderEvent)
    (hpre : ∀ e ∈ pre, IS_WAVE_END e.type = false)
    (ht : IS_WAVE_END t.type = true)
    (hok : (ingest_all env initState (pre ++ [t])).error = none) :
    (ingest_all env initState pre).trace = [] ∧
    ((ingest_all env initState (pre ++ [t])).trace.filter Action.isRecompute).length = 1 ∧
    (ingest_all env initState (pre ++ [t])).state.events_wave = EventsWave.new ∧
    (ingest_all env initState (pre ++ [t])).state.to_listen_new_events = true := by
  obtain ⟨e1, e2, e3, e4⟩ := ingest_non_terms env pre hpre initState rfl rfl
  have happ := ingest_all_append_one env pre t initState e1
  have hnu : t.type ≠ .node_update := is_wave_end_ne_node_update t ht
  have hend : ((ingest_all env initState pre).state.events_wave.add_event t).is_end = true := by
    rw [is_end_add_event _ _ hnu]
    exact ht
  have hadd : add_new_event env (ingest_all env initState pre).state t =
      dispatch env {(ingest_all env initState pre).state with
        events_wave := (ingest_all env initState pre).state.events_wave.add_event t,
        to_listen_new_events := false} := by
    unfold add_new_event
    rw [e3, if_pos rfl]
    unfold handle_new_event
    show (if ((ingest_all env initState pre).state.events_wave.add_event t).is_end
      then _ else _) = _
    rw [hend]
    rfl
  rw [happ] at hok ⊢
  simp only [] at hok ⊢
  rw [hadd] at hok ⊢
  obtain ⟨sv, hsv, hfl, hwv, htr⟩ := dispatch_success_shape env _ hok
  refine ⟨e2, ?_, hwv, hfl⟩
  rw [e2, htr]
  simp [List.filter_append, filter_isRecompute_redraws, Action.isRecompute]

/-- Witness for C4: one `add_node` raw event followed by a property-update
terminator, against a benign environment. -/
theorem single_cycle_per_wave_witness :
    (ingest_all ⟨[], fun _ => true, fun _ => true⟩ initState
        [⟨.add_node, none, some ("n"), none, none⟩]).trace = [] ∧
    ((ingest_all ⟨[], fun _ => true, fun _ => true⟩ initState
        ([⟨.add_node, none, some ("n"), none, none⟩] ++
          [⟨.node_property_update, none, none, none, none⟩])).trace.filter
      Action.isRecompute).length = 1 ∧
    (ingest_all ⟨[], fun _ => true, fun _ => true⟩ initState
        ([⟨.add_node, none, some ("n"), none, none⟩] ++
          [⟨.node_property_update, none, none, none, none⟩])).state.events_wave
      = EventsWave.new ∧
    (ingest_all ⟨[], fun _ => true, fun _ => true⟩ initState
        ([⟨.add_node, none, some ("n"), none, none⟩] ++
          [⟨.node_property_update, none, none, none, none⟩])).state.to_listen_new_events
      = true :=
  single_cycle_per_wave ⟨[], fun _ => true, fun _ => true⟩
    [⟨.add_node, none, some ("n"), none, none⟩]
    ⟨.node_property_update, none, none, none, none⟩
    (by decide) rfl (by decide)

/-- C5: an `ingest` call made while the suppression flag is lowered returns
with the whole state — wave contents included — unchanged, makes no external
call and defers nothing; and a dispatch that finishes without error re-enables
ingestion and installs a fresh empty wave. -/
theorem suppressed_ingest_dropped (env : Env) (s : GState) (e : BlenderEvent)
    (h : s.to_listen_new_events = false)
    (s2 : GState) (hend : s2.events_wave.is_end = true)
    (hok : (handle_new_event env s2).error = none) :
    add_new_event env s e = ⟨s, [], none⟩ ∧
    (handle_new_event env s2).state.to_listen_new_events = true ∧
    (handle_new_event env s2).state.events_wave = EventsWave.new := by
  refine ⟨?_, ?_, ?_⟩
  · unfold add_new_event
    rw [h]
    rfl
  all_goals
    unfold handle_new_event at hok ⊢
    rw [hend, if_pos rfl] at hok ⊢
    obtain ⟨sv, hsv, hfl, hwv, htr⟩ := dispatch_success_shape env _ hok
    first
    | exact hfl
    | exact hwv

/-- Witness for C5: a suppressed state dropping a terminator, and a successful
undo-wave dispatch releasing the guard. -/
theorem suppressed_ingest_dropped_witness :
    add_new_event ⟨[], fun _ => true, fun _ => true⟩ ⟨EventsWave.new, false, []⟩
        ⟨.tree_update, none, none, none, none⟩
      = ⟨⟨EventsWave.new, false, []⟩, [], none⟩ ∧
    (handle_new_event ⟨[], fun _ => true, fun _ => true⟩
        ⟨⟨[⟨.undo, none, none, none, none⟩], false, false, false, false⟩,
          true, []⟩).state.to_listen_new_events = true ∧
    (handle_new_event ⟨[], fun _ => true, fun _ => true⟩
        ⟨⟨[⟨.undo, none, none, none, none⟩], false, false, false, false⟩,
          true, []⟩).state.events_wave = EventsWave.new :=
  suppressed_ingest_dropped ⟨[], fun _ => true, fun _ => true⟩ ⟨EventsWave.new, false, []⟩
    ⟨.tree_update, none, none, none, none⟩ rfl
    ⟨⟨[⟨.undo, none, none, none, none⟩], false, false, false, false⟩, true, []⟩
    rfl (by decide)

/-- C8 (amended): when an ended, non-topology-terminated wave dispatches
without error, the redraw callbacks are invoked in the order the source raw
events were appended, and the recomputation engine is then invoked exactly
once, with the (possibly absent) node reference of every domain event except
the node-freed ones. -/
theorem redraw_order_and_single_recompute (env : Env) (s : GState)
    (lastEv : BlenderEvent)
    (hlast : s.events_wave.events_wave.getLast? = some lastEv)
    (hterm : IS_WAVE_END lastEv.type = true)
    (hnt1 : lastEv.type ≠ .tree_update) (hnt2 : lastEv.type ≠ .monad_tree_update)
    (hok : (handle_new_event env s).error = none) :
    (handle_new_event env s).trace =
      ((s.events_wave.events_wave.map BlenderEvent.convert_to_sverchok_event).filterMap
        (fun e => e.update_function.map Action.redraw)) ++
      [Action.recompute (((s.events_wave.events_wave.map
          BlenderEvent.convert_to_sverchok_event).filter
        (fun e => e.type != SverchokEventsTypes.free_node)).map SverchokEvent.node)] := by
  have hend : s.events_wave.is_end = true := by
    unfold EventsWave.is_end
    rw [hlast]
    exact hterm
  unfold handle_new_event at hok ⊢
  rw [hend, if_pos rfl] at hok ⊢
  obtain ⟨sv, hsv, hfl, hwv, htr⟩ := dispatch_success_shape env _ hok
  have hconv := convert_non_topology
    ({s with to_listen_new_events := false} : GState).events_wave
    (get_node_tree_reconstruction
      ({s with to_listen_new_events := false} : GState).node_trees
      (wave_tree_key ({s with to_listen_new_events := false} : GState).events_wave)).1
    lastEv hlast hterm hnt1 hnt2
  rw [hconv] at hsv
  have hsv2 := Except.ok.inj hsv
  rw [htr, ← hsv2]

/-- Witness for C8 (amended): an `add_node` event followed by a property
update carrying callback `5`; the callback is invoked once, then the engine
receives both events' node references. -/
theorem redraw_order_and_single_recompute_witness :
    (handle_new_event ⟨[], fun _ => true, fun _ => true⟩
        ⟨⟨[⟨.add_node, none, some ("n"), none, none⟩,
           ⟨.node_property_update, none, none, none, some 5⟩],
          false, false, false, false⟩, true, []⟩).trace =
      (([⟨.add_node, none, some ("n"), none, none⟩,
         (⟨.node_property_update, none, none, none, some 5⟩ : BlenderEvent)].map
          BlenderEvent.convert_to_sverchok_event).filterMap
        (fun e => e.update_function.map Action.redraw)) ++
      [Action.recompute ((([⟨.add_node, none, some ("n"), none, none⟩,
           (⟨.node_property_update, none, none, none, some 5⟩ : BlenderEvent)].map
          BlenderEvent.convert_to_sverchok_event).filter
        (fun e => e.type != SverchokEventsTypes.free_node)).map SverchokEvent.node)] :=
  redraw_order_and_single_recompute ⟨[], fun _ => true, fun _ => true⟩
    ⟨⟨[⟨.add_node, none, some ("n"), none, none⟩,
       ⟨.node_property_update, none, none, none, some 5⟩],
      false, false, false, false⟩, true, []⟩
    ⟨.node_property_update, none, none, none, some 5⟩
    rfl rfl (by decide) (by decide) (by decide)

/-- C10: the empty wave is not ended (`is_end` short-circuits without indexing
the buffer), classification of an empty wave returns the precondition error
without inspecting a last element, and ingesting a filtered `node_update`
event on an empty wave leaves the state untouched and triggers no dispatch. -/
theorem empty_wave_never_dispatches :
    (∀ w : EventsWave, w.events_wave = [] → w.is_end = false) ∧
    (∀ (w : EventsWave) (shadow : SvTree), w.events_wave = [] →
      w.convert_to_sverchok_events shadow = .error .runtimeError) ∧
    (∀ (env : Env) (s : GState) (e : BlenderEvent), s.events_wave.events_wave = [] →
      s.to_listen_new_events = true → e.type = .node_update →
      add_new_event env s e = ⟨s, [], none⟩) := by
  refine ⟨?_, ?_, ?_⟩
  · intro w h
    exact is_end_of_nil_events w h
  · intro w shadow h
    have hend := is_end_of_nil_events w h
    unfold EventsWave.convert_to_sverchok_events
    rw [hend]
    rfl
  · intro env s e hw hl ht
    rcases s with ⟨w, fl, reg⟩
    simp only [] at hw hl
    subst hl
    unfold add_new_event
    rw [if_pos rfl]
    simp only []
    rw [add_event_of_node_update w e ht]
    unfold handle_new_event
    show (if w.is_end then _ else _) = _
    rw [is_end_of_nil_events w hw]
    rfl

/-- Witness for C10 at the fresh wave and initial state. -/
theorem empty_wave_never_dispatches_witness :
    EventsWave.new.is_end = false ∧
    EventsWave.new.convert_to_sverchok_events ⟨none, [], []⟩ = .error .runtimeError ∧
    add_new_event ⟨[], fun _ => true, fun _ => true⟩ initState
        ⟨.node_update, none, none, none, none⟩ = ⟨initState, [], none⟩ :=
  ⟨empty_wave_never_dispatches.1 EventsWave.new rfl,
   empty_wave_never_dispatches.2.1 EventsWave.new ⟨none, [], []⟩ rfl,
   empty_wave_never_dispatches.2.2 ⟨[], fun _ => true, fun _ => true⟩ initState
     ⟨.node_update, none, none, none, none⟩ rfl rfl rfl⟩

end SvEvents
